import Mathlib

/-!
# Verification of the canvas-collab whiteboard history/board-set core

Shallow embedding of the history and board-management logic of
`src/src/components/whiteboard/Whiteboard.tsx` (the Supabase-backed
variant of the component, the one the specification describes).

The component keeps, per board, a linear history of canvas snapshots
(`boardHistory`) with a cursor (`boardHistoryIndex`), an ordered board
collection (`boards`), the active board index, a re-entrancy guard
(`isRestoringHistory`) suppressing captures while an undo/redo restore
is in flight, and the single shared drawing surface (`canvas`).

Snapshots are opaque documents, so the model is polymorphic in the
snapshot type `Snap`; the empty document `{}` of the source is the
explicit `empty : Snap` argument.  Remote persistence calls and the
user-visible error notification are recorded as an `Effect` trace
returned alongside the new state; each handler is the event-loop
serialization of its async body (the completion callback of a restore is
fused with its initiation, which is how the single-threaded event loop
runs it).
-/

namespace CanvasCollab

/-- Externally visible effects of one handler call: Supabase persistence
calls (`upsert`, `insert`, `delete`, `update board_index`) and the
`toast.error` notification.  Success/info toasts are pure UI and not
traced. -/
inductive Effect (Snap : Type) where
  | upsert (boardIndex : Nat) (content : Snap)
  | insertRow (boardIndex : Nat) (content : Snap)
  | deleteRow (boardIndex : Nat)
  | updateIndex (oldIndex newIndex : Nat)
  | toastError
  deriving DecidableEq, Repr

/-- Controller state of the `Whiteboard` component: the `boards` state
array, `activeBoardIndex`, the per-board history refs, the restore
guard, and the content materialized on the shared canvas surface. -/
structure WB (Snap : Type) where
  boards : List Snap
  activeBoardIndex : Nat
  boardHistory : List (List Snap)
  boardHistoryIndex : List Nat
  isRestoringHistory : Bool
  canvas : Snap
  deriving DecidableEq, Repr

variable {Snap : Type}

/-- `canUndo` as computed by the history effect: `index > 0`, where a
missing entry reads as `-1` (`?? -1` in the source), hence `false`. -/
def canUndo (s : WB Snap) : Bool :=
  match s.boardHistoryIndex.get? s.activeBoardIndex with
  | some i => decide (0 < i)
  | none => false

/-- `canRedo` as computed by the history effect: `index < history.length - 1`
over JS numbers, where a missing index reads as `-1`. -/
def canRedo (s : WB Snap) : Bool :=
  match s.boardHistoryIndex.get? s.activeBoardIndex with
  | some i => decide (i + 1 < (s.boardHistory.getD s.activeBoardIndex []).length)
  | none => decide (0 < (s.boardHistory.getD s.activeBoardIndex []).length)

/-- `updateHistoryAndSave` (capture): no-op while the restore guard is
set; otherwise truncate the active board's history to `[0, cursor]`
(`history.slice(0, index + 1)`), append the current canvas state, move
the cursor to the new tail, mirror the state into `boards`, and upsert
it remotely.  The source indexes `boardHistory.current[activeBoardIndex]`
unconditionally; the `getD` defaults are only reached outside the
parallel-array invariant the component maintains. -/
def updateHistoryAndSave (s : WB Snap) : WB Snap × List (Effect Snap) :=
  if s.isRestoringHistory then (s, [])
  else
    let currentState := s.canvas
    let history := s.boardHistory.getD s.activeBoardIndex []
    let index := s.boardHistoryIndex.getD s.activeBoardIndex 0
    let newHistory := history.take (index + 1) ++ [currentState]
    ({ boards := s.boards.set s.activeBoardIndex currentState
       activeBoardIndex := s.activeBoardIndex
       boardHistory := s.boardHistory.set s.activeBoardIndex newHistory
       boardHistoryIndex :=
         s.boardHistoryIndex.set s.activeBoardIndex (newHistory.length - 1)
       isRestoringHistory := s.isRestoringHistory
       canvas := s.canvas },
     [.upsert s.activeBoardIndex currentState])

/-- `handleUndo`: no-op when the cursor is `0` (`index <= 0`); otherwise
set the guard, decrement the cursor, restore `entries[cursor]` onto the
surface, mirror it into `boards`, upsert it, and clear the guard in the
completion callback (the callback is fused here, so the guard ends
`false`). -/
def handleUndo (empty : Snap) (s : WB Snap) : WB Snap × List (Effect Snap) :=
  let index := s.boardHistoryIndex.getD s.activeBoardIndex 0
  if index = 0 then (s, [])
  else
    let newIndex := index - 1
    let prevState :=
      ((s.boardHistory.getD s.activeBoardIndex []).get? newIndex).getD empty
    ({ boards := s.boards.set s.activeBoardIndex prevState
       activeBoardIndex := s.activeBoardIndex
       boardHistory := s.boardHistory
       boardHistoryIndex := s.boardHistoryIndex.set s.activeBoardIndex newIndex
       isRestoringHistory := false
       canvas := prevState },
     [.upsert s.activeBoardIndex prevState])

/-- `handleRedo`: mirror of undo.  The source guard `index >= history.length - 1`
over JS numbers is `history.length ≤ index + 1` over naturals. -/
def handleRedo (empty : Snap) (s : WB Snap) : WB Snap × List (Effect Snap) :=
  let history := s.boardHistory.getD s.activeBoardIndex []
  let index := s.boardHistoryIndex.getD s.activeBoardIndex 0
  if history.length ≤ index + 1 then (s, [])
  else
    let newIndex := index + 1
    let nextState := (history.get? newIndex).getD empty
    ({ boards := s.boards.set s.activeBoardIndex nextState
       activeBoardIndex := s.activeBoardIndex
       boardHistory := s.boardHistory
       boardHistoryIndex := s.boardHistoryIndex.set s.activeBoardIndex newIndex
       isRestoringHistory := false
       canvas := nextState },
     [.upsert s.activeBoardIndex nextState])

/-- `handleClearAll`: reset the surface to the empty document
(`canvas.clear()` plus white background), then capture it through
`updateHistoryAndSave`. -/
def handleClearAll (empty : Snap) (s : WB Snap) : WB Snap × List (Effect Snap) :=
  updateHistoryAndSave { s with canvas := empty }

/-- `handleAddBoard`: flush the current surface through
`updateHistoryAndSave`, insert a remote row for index `boards.length`;
on insert failure report an error and stop; on success append a fresh
board with history `[{}]`, cursor `0`, activate it and clear the
surface.  `insertFails` models the outcome of the remote insert. -/
def handleAddBoard (empty : Snap) (s : WB Snap) (insertFails : Bool) :
    WB Snap × List (Effect Snap) :=
  let flushed := updateHistoryAndSave s
  let s1 := flushed.1
  let newIndex := s.boards.length
  if insertFails then (s1, flushed.2 ++ [.insertRow newIndex empty, .toastError])
  else
    ({ boards := s1.boards ++ [empty]
       activeBoardIndex := newIndex
       boardHistory := s1.boardHistory ++ [[empty]]
       boardHistoryIndex := s1.boardHistoryIndex ++ [0]
       isRestoringHistory := s1.isRestoringHistory
       canvas := empty },
     flushed.2 ++ [.insertRow newIndex empty])

/-- `handleSwitchBoard`: no-op on the active index; otherwise flush the
current board, activate the target and materialize its current history
entry (`boardHistory[index][boardHistoryIndex[index]] || {}`). -/
def handleSwitchBoard (empty : Snap) (s : WB Snap) (index : Nat) :
    WB Snap × List (Effect Snap) :=
  if index = s.activeBoardIndex then (s, [])
  else
    let flushed := updateHistoryAndSave s
    let s1 := flushed.1
    let boardState :=
      ((s1.boardHistory.getD index []).get? (s1.boardHistoryIndex.getD index 0)).getD
        empty
    ({ s1 with activeBoardIndex := index, canvas := boardState }, flushed.2)

/-- `handleDeleteBoard`: reject with an error toast when only one board
is left; otherwise delete the remote row at `index`, issue one
`board_index` decrement per remote row with index above it (the
`for (let i = index + 1; i < boards.length; i++)` loop), splice the
history arrays, recompute the active index by the three-case rule, drop
the board, and materialize the new active board's current entry.
`deleteFails` models the outcome of the remote delete call. -/
def handleDeleteBoard (empty : Snap) (s : WB Snap) (index : Nat)
    (deleteFails : Bool) : WB Snap × List (Effect Snap) :=
  if s.boards.length ≤ 1 then (s, [.toastError])
  else if deleteFails then (s, [.deleteRow index, .toastError])
  else
    let renumber :=
      (List.range' (index + 1) (s.boards.length - (index + 1))).map
        (fun i => Effect.updateIndex i (i - 1))
    let newHistory := s.boardHistory.eraseIdx index
    let newHistIdx := s.boardHistoryIndex.eraseIdx index
    let newActiveIndex :=
      if index = s.activeBoardIndex then index - 1
      else if index < s.activeBoardIndex then s.activeBoardIndex - 1
      else s.activeBoardIndex
    let newBoards := s.boards.eraseIdx index
    let boardState :=
      ((newHistory.getD newActiveIndex []).get? (newHistIdx.getD newActiveIndex 0)).getD
        empty
    ({ boards := newBoards
       activeBoardIndex := newActiveIndex
       boardHistory := newHistory
       boardHistoryIndex := newHistIdx
       isRestoringHistory := s.isRestoringHistory
       canvas := boardState },
     .deleteRow index :: renumber)

/-- Active-index part of `loadData`: the locally saved value is adopted
when it parses to a number (`Option.some`), else `0`. -/
def loadSavedActiveIndex (savedIndexRaw : Option Int) : Int :=
  match savedIndexRaw with
  | some n => n
  | none => 0

/-- `finalIndex` of `loadData` when remote rows exist:
`activeIndex < loadedBoards.length ? activeIndex : 0`. -/
def loadFinalIndex (savedIndexRaw : Option Int) (loadedCount : Nat) : Int :=
  if loadSavedActiveIndex savedIndexRaw < (loadedCount : Int) then
    loadSavedActiveIndex savedIndexRaw
  else 0

/-- The empty-rows branch of `loadData`: when no remote rows exist, seed
a fresh single empty board (`setBoards([{}])`, `setActiveBoardIndex(0)`,
history `[[{}]]`, cursor `[0]`) and insert its remote row at index `0`.
The restore guard starts cleared (`useRef(false)`) and this branch never
touches it; the visible surface is left as it was (`surface`), since the
branch issues no restore. -/
def loadSeedState (empty : Snap) (surface : Snap) : WB Snap × List (Effect Snap) :=
  ({ boards := [empty]
     activeBoardIndex := 0
     boardHistory := [[empty]]
     boardHistoryIndex := [0]
     isRestoringHistory := false
     canvas := surface },
   [.insertRow 0 empty])

/-- The board-set invariant `0 <= activeIndex < boards.length` (the
lower bound is inherent to `Nat` in this model). -/
def activeInv (s : WB Snap) : Prop :=
  s.activeBoardIndex < s.boards.length

instance (s : WB Snap) : Decidable (activeInv s) := by
  unfold activeInv; infer_instance

/-- A concrete two-board state used by the witnesses: board 1 is active,
its history is `[0, 7]` with the cursor at the tail. -/
def sampleState : WB Nat :=
  { boards := [5, 7]
    activeBoardIndex := 1
    boardHistory := [[5], [0, 7]]
    boardHistoryIndex := [0, 1]
    isRestoringHistory := false
    canvas := 7 }

end CanvasCollab

namespace CanvasCollab

/-- C2: while a restore triggered by undo or redo is in flight (the
`isRestoringHistory` guard is set), `updateHistoryAndSave` returns the
state unchanged — history, cursor and `boards` untouched — and issues no
persistence call: the capture is silently dropped, not queued. -/
theorem claim_c2_capture_noop_during_restore (s : WB Snap)
    (hg : s.isRestoringHistory = true) :
    updateHistoryAndSave s = (s, []) := by
  unfold updateHistoryAndSave
  rw [hg]
  simp

/-- Witness for C2 at a concrete guard-set state. -/
theorem claim_c2_witness :
    ({ sampleState with isRestoringHistory := true } : WB Nat).isRestoringHistory = true ∧
    updateHistoryAndSave { sampleState with isRestoringHistory := true } =
      ({ sampleState with isRestoringHistory := true }, []) :=
  ⟨by decide,
   claim_c2_capture_noop_during_restore { sampleState with isRestoringHistory := true }
     (by decide)⟩

/-- C6: undo with the cursor at `0` is a no-op: the state (history log,
cursor, boards, surface) is unchanged and no persistence call is
issued. -/
theorem claim_c6_undo_noop (empty : Snap) (s : WB Snap)
    (h : s.boardHistoryIndex.getD s.activeBoardIndex 0 = 0) :
    handleUndo empty s = (s, []) := by
  unfold handleUndo
  rw [h]
  simp

/-- Witness for C6 at a concrete cursor-zero state. -/
theorem claim_c6_witness :
    ({ sampleState with boardHistoryIndex := [0, 0] } : WB Nat).boardHistoryIndex.getD
      ({ sampleState with boardHistoryIndex := [0, 0] } : WB Nat).activeBoardIndex 0 = 0 ∧
    handleUndo 0 { sampleState with boardHistoryIndex := [0, 0] } =
      ({ sampleState with boardHistoryIndex := [0, 0] }, []) :=
  ⟨by decide,
   claim_c6_undo_noop 0 { sampleState with boardHistoryIndex := [0, 0] } (by decide)⟩

/-- C7: redo with the cursor at the tail (`cursor = entries.length - 1`)
is a no-op: the state is unchanged and no restore or persistence call is
issued. -/
theorem claim_c7_redo_noop (empty : Snap) (s : WB Snap)
    (h : s.boardHistoryIndex.getD s.activeBoardIndex 0 =
      (s.boardHistory.getD s.activeBoardIndex []).length - 1) :
    handleRedo empty s = (s, []) := by
  unfold handleRedo
  rw [h]
  rw [if_pos (by omega)]

/-- Witness for C7 at a concrete tail-cursor state. -/
theorem claim_c7_witness :
    (sampleState.boardHistoryIndex.getD sampleState.activeBoardIndex 0 =
      (sampleState.boardHistory.getD sampleState.activeBoardIndex []).length - 1) ∧
    handleRedo 0 sampleState = (sampleState, []) :=
  ⟨by decide, claim_c7_redo_noop 0 sampleState (by decide)⟩

/-- C5: deleting from a set with exactly one board reports a
user-visible error and performs no mutation: boards, active index,
histories and surface are unchanged, and no remote delete or
renumbering call is issued. -/
theorem claim_c5_delete_last_board (empty : Snap) (s : WB Snap) (index : Nat)
    (deleteFails : Bool) (h1 : s.boards.length = 1) :
    handleDeleteBoard empty s index deleteFails = (s, [.toastError]) := by
  unfold handleDeleteBoard
  rw [if_pos (by omega)]

/-- Witness for C5 at a concrete one-board state. -/
theorem claim_c5_witness :
    ({ sampleState with boards := [5] } : WB Nat).boards.length = 1 ∧
    handleDeleteBoard 0 { sampleState with boards := [5] } 0 false =
      ({ sampleState with boards := [5] }, [.toastError]) :=
  ⟨by decide,
   claim_c5_delete_last_board 0 { sampleState with boards := [5] } 0 false (by decide)⟩

end CanvasCollab

namespace CanvasCollab

/-- Helper: reading back the entry just written by `List.set`. -/
theorem getD_set_self {α : Type} (l : List α) (i : Nat) (a d : α)
    (h : i < l.length) : (l.set i a).getD i d = a := by
  simp [List.getD, List.getElem?_set_self, h]

/-- C1: with the restore guard clear and a valid cursor, a capture
truncates the active board's log to `[0, cursor]`, appends the canvas
snapshot, moves the cursor to the new tail, and therefore leaves
`canRedo` false — in particular directly after any run of undos. -/
theorem claim_c1_capture_truncates (s : WB Snap)
    (hg : s.isRestoringHistory = false)
    (hbh : s.activeBoardIndex < s.boardHistory.length)
    (hbi : s.activeBoardIndex < s.boardHistoryIndex.length)
    (hc : s.boardHistoryIndex.getD s.activeBoardIndex 0 <
      (s.boardHistory.getD s.activeBoardIndex []).length) :
    (updateHistoryAndSave s).1.boardHistory.getD s.activeBoardIndex [] =
      (s.boardHistory.getD s.activeBoardIndex []).take
        (s.boardHistoryIndex.getD s.activeBoardIndex 0 + 1) ++ [s.canvas] ∧
    (updateHistoryAndSave s).1.boardHistoryIndex.getD s.activeBoardIndex 0 =
      s.boardHistoryIndex.getD s.activeBoardIndex 0 + 1 ∧
    canRedo (updateHistoryAndSave s).1 = false := by
  unfold updateHistoryAndSave
  rw [hg]
  simp only [Bool.false_eq_true, if_false]
  have hlen : ((s.boardHistory.getD s.activeBoardIndex []).take
      (s.boardHistoryIndex.getD s.activeBoardIndex 0 + 1)).length =
      s.boardHistoryIndex.getD s.activeBoardIndex 0 + 1 := by
    rw [List.length_take]
    omega
  refine ⟨?_, ?_, ?_⟩
  · exact getD_set_self _ _ _ _ hbh
  · rw [getD_set_self _ _ _ _ hbi]
    simp only [List.length_append, hlen, List.length_cons, List.length_nil]
    omega
  · unfold canRedo
    simp only
    rw [List.get?_eq_getElem?, List.getElem?_set_self hbi]
    rw [getD_set_self _ _ _ _ hbh]
    simp only [List.length_append, hlen, List.length_cons, List.length_nil,
      decide_eq_false_iff_not, not_lt]
    omega

/-- Witness for C1 on `sampleState` extended with a redo tail: cursor 1
inside a three-entry log. -/
theorem claim_c1_witness :
    (({ sampleState with boardHistory := [[5], [0, 7, 9]] } : WB Nat).boardHistoryIndex.getD 1 0 <
      (({ sampleState with boardHistory := [[5], [0, 7, 9]] } : WB Nat).boardHistory.getD 1 []).length) ∧
    ((updateHistoryAndSave { sampleState with boardHistory := [[5], [0, 7, 9]] }).1.boardHistory.getD 1 [] =
      [0, 7, 7] ∧
     canRedo (updateHistoryAndSave { sampleState with boardHistory := [[5], [0, 7, 9]] }).1 = false) := by
  refine ⟨by decide, ?_, ?_⟩
  · have h := claim_c1_capture_truncates
      { sampleState with boardHistory := [[5], [0, 7, 9]] }
      (by decide) (by decide) (by decide) (by decide)
    exact h.1.trans (by decide)
  · exact (claim_c1_capture_truncates
      { sampleState with boardHistory := [[5], [0, 7, 9]] }
      (by decide) (by decide) (by decide) (by decide)).2.2

end CanvasCollab

namespace CanvasCollab

/-- Characterization of a capture with the guard clear and the cursor in
range: the resulting state written out field by field. -/
theorem updateHistoryAndSave_eq (s : WB Snap)
    (hg : s.isRestoringHistory = false)
    (hc : s.boardHistoryIndex.getD s.activeBoardIndex 0 <
      (s.boardHistory.getD s.activeBoardIndex []).length) :
    updateHistoryAndSave s =
      ({ boards := s.boards.set s.activeBoardIndex s.canvas
         activeBoardIndex := s.activeBoardIndex
         boardHistory := s.boardHistory.set s.activeBoardIndex
           ((s.boardHistory.getD s.activeBoardIndex []).take
             (s.boardHistoryIndex.getD s.activeBoardIndex 0 + 1) ++ [s.canvas])
         boardHistoryIndex := s.boardHistoryIndex.set s.activeBoardIndex
           (s.boardHistoryIndex.getD s.activeBoardIndex 0 + 1)
         isRestoringHistory := false
         canvas := s.canvas },
       [.upsert s.activeBoardIndex s.canvas]) := by
  unfold updateHistoryAndSave
  rw [hg]
  simp only [Bool.false_eq_true, if_false, Prod.mk.injEq, WB.mk.injEq,
    List.length_append, List.length_take, List.length_cons, List.length_nil,
    true_and, and_true]
  congr 1
  omega

/-- Characterization of an undo with a positive cursor. -/
theorem handleUndo_eq (empty : Snap) (s : WB Snap)
    (hpos : 0 < s.boardHistoryIndex.getD s.activeBoardIndex 0) :
    handleUndo empty s =
      ({ boards := s.boards.set s.activeBoardIndex
           (((s.boardHistory.getD s.activeBoardIndex []).get?
             (s.boardHistoryIndex.getD s.activeBoardIndex 0 - 1)).getD empty)
         activeBoardIndex := s.activeBoardIndex
         boardHistory := s.boardHistory
         boardHistoryIndex := s.boardHistoryIndex.set s.activeBoardIndex
           (s.boardHistoryIndex.getD s.activeBoardIndex 0 - 1)
         isRestoringHistory := false
         canvas := ((s.boardHistory.getD s.activeBoardIndex []).get?
           (s.boardHistoryIndex.getD s.activeBoardIndex 0 - 1)).getD empty },
       [.upsert s.activeBoardIndex
         (((s.boardHistory.getD s.activeBoardIndex []).get?
           (s.boardHistoryIndex.getD s.activeBoardIndex 0 - 1)).getD empty)]) := by
  unfold handleUndo
  rw [if_neg (by omega)]

/-- Characterization of a redo with the cursor strictly below the tail. -/
theorem handleRedo_eq (empty : Snap) (s : WB Snap)
    (hlt : s.boardHistoryIndex.getD s.activeBoardIndex 0 + 1 <
      (s.boardHistory.getD s.activeBoardIndex []).length) :
    handleRedo empty s =
      ({ boards := s.boards.set s.activeBoardIndex
           (((s.boardHistory.getD s.activeBoardIndex []).get?
             (s.boardHistoryIndex.getD s.activeBoardIndex 0 + 1)).getD empty)
         activeBoardIndex := s.activeBoardIndex
         boardHistory := s.boardHistory
         boardHistoryIndex := s.boardHistoryIndex.set s.activeBoardIndex
           (s.boardHistoryIndex.getD s.activeBoardIndex 0 + 1)
         isRestoringHistory := false
         canvas := ((s.boardHistory.getD s.activeBoardIndex []).get?
           (s.boardHistoryIndex.getD s.activeBoardIndex 0 + 1)).getD empty },
       [.upsert s.activeBoardIndex
         (((s.boardHistory.getD s.activeBoardIndex []).get?
           (s.boardHistoryIndex.getD s.activeBoardIndex 0 + 1)).getD empty)]) := by
  unfold handleRedo
  rw [if_neg (by omega)]

end CanvasCollab

namespace CanvasCollab

/-- C9: round-trip — a capture of the current surface, immediately
followed by undo then redo, materializes exactly the captured snapshot:
the redone surface equals `s.canvas`, the materialized entry is the very
list entry stored by the capture (identity as retrieval of the stored
entry, not a re-derived value), and undo/redo never rewrote the log. -/
theorem claim_c9_roundtrip (empty : Snap) (s : WB Snap)
    (hg : s.isRestoringHistory = false)
    (hbh : s.activeBoardIndex < s.boardHistory.length)
    (hbi : s.activeBoardIndex < s.boardHistoryIndex.length)
    (hc : s.boardHistoryIndex.getD s.activeBoardIndex 0 <
      (s.boardHistory.getD s.activeBoardIndex []).length) :
    (handleRedo empty (handleUndo empty (updateHistoryAndSave s).1).1).1.canvas = s.canvas ∧
    ((handleRedo empty (handleUndo empty (updateHistoryAndSave s).1).1).1.boardHistory.getD
        s.activeBoardIndex []).get?
      ((handleRedo empty (handleUndo empty (updateHistoryAndSave s).1).1).1.boardHistoryIndex.getD
        s.activeBoardIndex 0) = some s.canvas ∧
    (handleRedo empty (handleUndo empty (updateHistoryAndSave s).1).1).1.boardHistory =
      (updateHistoryAndSave s).1.boardHistory := by
  rw [updateHistoryAndSave_eq s hg hc]
  simp only
  rw [handleUndo_eq empty _ (by
    simp only
    rw [getD_set_self _ _ _ _ hbi]
    omega)]
  simp only
  rw [getD_set_self _ s.activeBoardIndex (s.boardHistoryIndex.getD s.activeBoardIndex 0 + 1) 0 hbi]
  rw [getD_set_self _ s.activeBoardIndex _ ([] : List Snap) hbh]
  rw [Nat.add_sub_cancel]
  simp only [List.set_set]
  rw [handleRedo_eq empty _ (by
    simp only
    simp only [getD_set_self, hbi, hbh]
    simp only [List.length_append, List.length_take, List.length_cons, List.length_nil]
    omega)]
  simp only [List.set_set]
  simp only [getD_set_self, hbi, hbh]
  have htk : (List.take (s.boardHistoryIndex.getD s.activeBoardIndex 0 + 1)
      (s.boardHistory.getD s.activeBoardIndex [])).length =
      s.boardHistoryIndex.getD s.activeBoardIndex 0 + 1 := by
    rw [List.length_take]
    omega
  have hkey : (List.take (s.boardHistoryIndex.getD s.activeBoardIndex 0 + 1)
        (s.boardHistory.getD s.activeBoardIndex []) ++ [s.canvas]).get?
      (s.boardHistoryIndex.getD s.activeBoardIndex 0 + 1) = some s.canvas := by
    rw [List.get?_eq_getElem?]
    rw [List.getElem?_append_right htk.le]
    rw [htk]
    simp
  rw [hkey]
  simp

/-- Witness for C9 on `sampleState`: capture of canvas `7`, undo, redo
brings the surface back to `7`. -/
theorem claim_c9_witness :
    (sampleState.boardHistoryIndex.getD sampleState.activeBoardIndex 0 <
      (sampleState.boardHistory.getD sampleState.activeBoardIndex []).length) ∧
    (handleRedo 0 (handleUndo 0 (updateHistoryAndSave sampleState).1).1).1.canvas =
      sampleState.canvas :=
  ⟨by decide,
   (claim_c9_roundtrip 0 sampleState (by decide) (by decide) (by decide) (by decide)).1⟩

end CanvasCollab

namespace CanvasCollab

/-- C8: clearing the active board resets the surface to the empty
document and records it as a normal capture: the log becomes the old
entries up to the cursor plus the empty snapshot, the cursor advances by
one, `canUndo` is true immediately afterwards, and a single undo
restores the pre-clear surface content. -/
theorem claim_c8_clear_board (empty : Snap) (s : WB Snap)
    (hg : s.isRestoringHistory = false)
    (hbh : s.activeBoardIndex < s.boardHistory.length)
    (hbi : s.activeBoardIndex < s.boardHistoryIndex.length)
    (hsync : (s.boardHistory.getD s.activeBoardIndex []).get?
      (s.boardHistoryIndex.getD s.activeBoardIndex 0) = some s.canvas) :
    (handleClearAll empty s).1.canvas = empty ∧
    (handleClearAll empty s).1.boardHistory.getD s.activeBoardIndex [] =
      (s.boardHistory.getD s.activeBoardIndex []).take
        (s.boardHistoryIndex.getD s.activeBoardIndex 0 + 1) ++ [empty] ∧
    (handleClearAll empty s).1.boardHistoryIndex.getD s.activeBoardIndex 0 =
      s.boardHistoryIndex.getD s.activeBoardIndex 0 + 1 ∧
    canUndo (handleClearAll empty s).1 = true ∧
    (handleUndo empty (handleClearAll empty s).1).1.canvas = s.canvas := by
  have hc : s.boardHistoryIndex.getD s.activeBoardIndex 0 <
      (s.boardHistory.getD s.activeBoardIndex []).length := by
    obtain ⟨hlt, -⟩ := List.get?_eq_some.mp hsync
    exact hlt
  unfold handleClearAll
  rw [updateHistoryAndSave_eq
    { boards := s.boards, activeBoardIndex := s.activeBoardIndex, boardHistory := s.boardHistory,
      boardHistoryIndex := s.boardHistoryIndex, isRestoringHistory := s.isRestoringHistory,
      canvas := empty }
    (by simpa using hg) (by simpa using hc)]
  simp only
  refine ⟨trivial, getD_set_self _ _ _ _ hbh, getD_set_self _ _ _ _ hbi, ?_, ?_⟩
  · unfold canUndo
    simp only
    rw [List.get?_eq_getElem?, List.getElem?_set_self hbi]
    simp
  · rw [handleUndo_eq empty _ (by
      simp only
      rw [getD_set_self _ _ _ _ hbi]
      omega)]
    simp only
    rw [getD_set_self _ s.activeBoardIndex (s.boardHistoryIndex.getD s.activeBoardIndex 0 + 1) 0 hbi]
    rw [getD_set_self _ s.activeBoardIndex _ ([] : List Snap) hbh]
    rw [Nat.add_sub_cancel]
    have hkey : (List.take (s.boardHistoryIndex.getD s.activeBoardIndex 0 + 1)
          (s.boardHistory.getD s.activeBoardIndex []) ++ [empty]).get?
        (s.boardHistoryIndex.getD s.activeBoardIndex 0) = some s.canvas := by
      rw [List.get?_eq_getElem?]
      rw [List.getElem?_append_left (by rw [List.length_take]; omega)]
      rw [List.getElem?_take_of_lt (by omega)]
      rw [← List.get?_eq_getElem?]
      exact hsync
    rw [hkey]
    simp

/-- Witness for C8 on `sampleState`: after clearing, undo brings back
canvas `7`. -/
theorem claim_c8_witness :
    ((sampleState.boardHistory.getD sampleState.activeBoardIndex []).get?
      (sampleState.boardHistoryIndex.getD sampleState.activeBoardIndex 0) =
        some sampleState.canvas) ∧
    canUndo (handleClearAll 0 sampleState).1 = true ∧
    (handleUndo 0 (handleClearAll 0 sampleState).1).1.canvas = sampleState.canvas := by
  have h := claim_c8_clear_board 0 sampleState (by decide) (by decide) (by decide) (by decide)
  exact ⟨by decide, h.2.2.2.1, h.2.2.2.2⟩

end CanvasCollab

namespace CanvasCollab

/-- Capture never changes the collection sizes, the active index or the
surface: only the active slots' contents and the cursor move. -/
theorem updateHistoryAndSave_preserves (s : WB Snap) :
    (updateHistoryAndSave s).1.boards.length = s.boards.length ∧
    (updateHistoryAndSave s).1.boardHistory.length = s.boardHistory.length ∧
    (updateHistoryAndSave s).1.boardHistoryIndex.length = s.boardHistoryIndex.length ∧
    (updateHistoryAndSave s).1.activeBoardIndex = s.activeBoardIndex ∧
    (updateHistoryAndSave s).1.canvas = s.canvas := by
  unfold updateHistoryAndSave
  split <;> simp

/-- C10: when the remote row insert fails, `handleAddBoard` stops after
the initial flush: the resulting state is exactly the flushed state — no
board or history log appended, sizes, active index and surface untouched
— and the only effects are the flush upsert, the failed insert attempt,
and an error notification. -/
theorem claim_c10_addboard_failure (empty : Snap) (s : WB Snap) :
    (handleAddBoard empty s true).1 = (updateHistoryAndSave s).1 ∧
    (handleAddBoard empty s true).1.boards.length = s.boards.length ∧
    (handleAddBoard empty s true).1.boardHistory.length = s.boardHistory.length ∧
    (handleAddBoard empty s true).1.boardHistoryIndex.length = s.boardHistoryIndex.length ∧
    (handleAddBoard empty s true).1.activeBoardIndex = s.activeBoardIndex ∧
    (handleAddBoard empty s true).1.canvas = s.canvas ∧
    (handleAddBoard empty s true).2 =
      (updateHistoryAndSave s).2 ++ [.insertRow s.boards.length empty, .toastError] := by
  obtain ⟨h1, h2, h3, h4, h5⟩ := updateHistoryAndSave_preserves s
  exact ⟨rfl, h1, h2, h3, h4, h5, rfl⟩

/-- C3: deleting board `k` from a set of `n ≥ 2` boards removes exactly
that position (so `n - 1` boards remain, contiguously reindexed by list
position), issues one remote delete for row `k` plus one `board_index`
decrement per remote row with index greater than `k`, recomputes the
active index by the three-case rule, and the new active index stays in
range. -/
theorem claim_c3_delete_board (empty : Snap) (s : WB Snap) (k : Nat)
    (h2 : 2 ≤ s.boards.length)
    (hk : k < s.boards.length)
    (ha : s.activeBoardIndex < s.boards.length) :
    (handleDeleteBoard empty s k false).1.boards = s.boards.eraseIdx k ∧
    (handleDeleteBoard empty s k false).1.boards.length = s.boards.length - 1 ∧
    (handleDeleteBoard empty s k false).2 =
      .deleteRow k :: (List.range' (k + 1) (s.boards.length - (k + 1))).map
        (fun i => .updateIndex i (i - 1)) ∧
    (handleDeleteBoard empty s k false).1.activeBoardIndex =
      (if k = s.activeBoardIndex then k - 1
       else if k < s.activeBoardIndex then s.activeBoardIndex - 1
       else s.activeBoardIndex) ∧
    (handleDeleteBoard empty s k false).1.activeBoardIndex <
      (handleDeleteBoard empty s k false).1.boards.length := by
  unfold handleDeleteBoard
  rw [if_neg (by omega)]
  refine ⟨rfl, List.length_eraseIdx_of_lt hk, rfl, rfl, ?_⟩
  show (if k = s.activeBoardIndex then k - 1
        else if k < s.activeBoardIndex then s.activeBoardIndex - 1
        else s.activeBoardIndex) < (s.boards.eraseIdx k).length
  rw [List.length_eraseIdx_of_lt hk]
  split_ifs <;> omega

/-- Witness for C3: deleting board 0 of the two-board `sampleState`
(active board 1) leaves board `7` and shifts the active index to 0. -/
theorem claim_c3_witness :
    2 ≤ sampleState.boards.length ∧
    (handleDeleteBoard 0 sampleState 0 false).1.boards = [7] ∧
    (handleDeleteBoard 0 sampleState 0 false).2 =
      [.deleteRow 0, .updateIndex 1 0] ∧
    (handleDeleteBoard 0 sampleState 0 false).1.activeBoardIndex = 0 := by
  have h := claim_c3_delete_board 0 sampleState 0 (by decide) (by decide) (by decide)
  exact ⟨by decide, h.1.trans (by decide), h.2.2.1.trans (by decide),
    h.2.2.2.1.trans (by decide)⟩

end CanvasCollab

namespace CanvasCollab

/-- C4 counterexample: the saved-index validation of `loadData` checks
only the upper bound (`activeIndex < loadedBoards.length`), not the
lower one, so a locally stored `-1` is adopted verbatim when one remote
row exists, violating `0 <= activeIndex`. -/
theorem claim_c4_counterexample :
    loadFinalIndex (some (-1)) 1 = -1 ∧ ¬ 0 ≤ loadFinalIndex (some (-1)) 1 := by
  decide

/-- C4 (amended): the invariant `0 <= activeIndex < boards.length` holds
after the initial load provided the locally saved index is non-negative
(the lower bound is not validated by the code), holds for the fresh
single-board seed of the empty-rows branch (`activeIndex = 0`, one
board), and is preserved by `handleAddBoard` (either insert outcome), by
`handleSwitchBoard` for in-range targets (the only ones the board
controls emit), and by `handleDeleteBoard` for every argument. -/
theorem claim_c4_invariant_amended :
    (∀ (raw : Option Int) (n : Nat), 1 ≤ n → 0 ≤ loadSavedActiveIndex raw →
      0 ≤ loadFinalIndex raw n ∧ loadFinalIndex raw n < (n : Int)) ∧
    (∀ (S : Type) (empty surface : S), activeInv (loadSeedState empty surface).1) ∧
    (∀ (S : Type) (empty : S) (s : WB S) (b : Bool),
      activeInv s → activeInv (handleAddBoard empty s b).1) ∧
    (∀ (S : Type) (empty : S) (s : WB S) (i : Nat),
      activeInv s → i < s.boards.length → activeInv (handleSwitchBoard empty s i).1) ∧
    (∀ (S : Type) (empty : S) (s : WB S) (i : Nat) (b : Bool),
      activeInv s → activeInv (handleDeleteBoard empty s i b).1) := by
  refine ⟨?_, ?_, ?_, ?_, ?_⟩
  · intro raw n h1 h0
    unfold loadFinalIndex
    split_ifs <;> constructor <;> omega
  · intro S empty surface
    show 0 < [empty].length
    simp
  · intro S empty s b hinv
    obtain ⟨h1, h2, h3, h4, h5⟩ := updateHistoryAndSave_preserves s
    cases b
    · show s.boards.length < ((updateHistoryAndSave s).1.boards ++ [empty]).length
      rw [List.length_append, h1]
      simp
    · show (updateHistoryAndSave s).1.activeBoardIndex <
        (updateHistoryAndSave s).1.boards.length
      rw [h1, h4]
      exact hinv
  · intro S empty s i hinv hi
    obtain ⟨h1, h2, h3, h4, h5⟩ := updateHistoryAndSave_preserves s
    unfold handleSwitchBoard
    split
    · exact hinv
    · show i < (updateHistoryAndSave s).1.boards.length
      rw [h1]
      exact hi
  · intro S empty s i b hinv
    unfold handleDeleteBoard
    by_cases hlen : s.boards.length ≤ 1
    · rw [if_pos hlen]
      exact hinv
    · rw [if_neg hlen]
      cases b
      · show (if i = s.activeBoardIndex then i - 1
              else if i < s.activeBoardIndex then s.activeBoardIndex - 1
              else s.activeBoardIndex) < (s.boards.eraseIdx i).length
        unfold activeInv at hinv
        by_cases hi : i < s.boards.length
        · rw [List.length_eraseIdx_of_lt hi]
          split_ifs <;> omega
        · rw [List.eraseIdx_eq_self.mpr (by omega)]
          split_ifs <;> omega
      · exact hinv

/-- Witness for the amended C4 at concrete inputs: a valid saved index
survives the load, the fresh seed is in range, and add/switch/delete
keep `sampleState` in range. -/
theorem claim_c4_witness :
    (0 ≤ loadFinalIndex (some 1) 2 ∧ loadFinalIndex (some 1) 2 < (2 : Int)) ∧
    activeInv (loadSeedState 0 0 : WB Nat × List (Effect Nat)).1 ∧
    activeInv (handleAddBoard 0 sampleState false).1 ∧
    activeInv (handleSwitchBoard 0 sampleState 0).1 ∧
    activeInv (handleDeleteBoard 0 sampleState 0 false).1 := by
  have h := claim_c4_invariant_amended
  exact ⟨h.1 (some 1) 2 (by decide) (by decide),
    h.2.1 Nat 0 0,
    h.2.2.1 Nat 0 sampleState false (by decide),
    h.2.2.2.1 Nat 0 sampleState 0 (by decide) (by decide),
    h.2.2.2.2 Nat 0 sampleState 0 false (by decide)⟩

end CanvasCollab
